import Mathlib

/-!
Shallow embedding of the effect-realization state machine implemented in
winrt/lib/effects/CanvasEffect.cpp: device-identity tracking, lazy creation
of the device resource, dirty-flag driven re-application of properties and
inputs, and recursive realization of upstream effect inputs against the same
device context.  Machine-level details that the control flow never inspects
(COM reference counting, the float payloads themselves) are represented by
opaque natural-number tokens; everything the claims talk about (branches,
thrown error codes, the calls issued to the device resource, the mutated
member state) is modelled explicitly, and each realization returns an event
trace of the calls made on device objects so that re-application behaviour
is observable.
-/

namespace CanvasEffectModel

/-- Error codes thrown on the realization and mutation paths of the source
(values passed to ThrowHR).  The noInterface case carries the input index
that the source formats into the error message (Strings::EffectWrongInputType
with index i). -/
inductive HErr where
  | nullPointer
  | noInterface (inputIndex : Nat)
  | notImpl
  | outOfRange
deriving DecidableEq

/-- Success code: Close in the source always returns S_OK. -/
inductive HRes where
  | sOk
deriving DecidableEq

/-- Tagged property value (the IPropertyValue collaborator): a runtime type
tag plus a payload.  Float payloads are opaque tokens, because SetProperties
only passes them through and dispatches on the tag and on the array length,
never on the numeric value.  The other case stands for every remaining
PropertyType tag, all of which hit the default branch of the switch. -/
inductive PropVal where
  | uint32 (v : Nat)
  | single (v : Nat)
  | singleArray (vs : List Nat)
  | other (tag : Nat)
deriving DecidableEq

/-- Value as applied to the device resource by SetValue. -/
inductive AppliedValue where
  | vUint32 (v : Nat)
  | vSingle (v : Nat)
  | vMatrix4x4 (vs : List Nat)
deriving DecidableEq

/-- Observable calls made on device objects during realization. -/
inductive Event where
  | realizeCall (deviceIdentity effectId : Nat)
  | createEffect (effectId resId : Nat)
  | setValue (resId idx : Nat) (v : AppliedValue)
  | setInputCount (resId count : Nat)
  | setInput (resId idx imageId : Nat)
deriving DecidableEq

/-- Device-resident effect resource (the ID2D1Effect held in m_resource).
The resId field is the instance identity of the resource object; it is also
the identity of the ID2D1Image the resource exposes when queried at the end
of GetD2DImage. -/
structure D2DResource where
  resId : Nat
  effectId : Nat
  inputCount : Nat
  values : List (Nat × AppliedValue)
  boundInputs : List (Nat × Nat)
deriving DecidableEq

/-- Freshly created effect resource: no applied values, no bound inputs. -/
def D2DResource.fresh (effectId resId : Nat) : D2DResource :=
  ⟨resId, effectId, 0, [], []⟩

/-- Call SetValue on the resource (latest write first). -/
def D2DResource.setValue (r : D2DResource) (i : Nat) (v : AppliedValue) : D2DResource :=
  { r with values := (i, v) :: r.values }

/-- Call SetInputCount on the resource. -/
def D2DResource.setInputCount (r : D2DResource) (c : Nat) : D2DResource :=
  { r with inputCount := c }

/-- Call SetInput on the resource (latest write first). -/
def D2DResource.setInput (r : D2DResource) (i img : Nat) : D2DResource :=
  { r with boundInputs := (i, img) :: r.boundInputs }

/-- Currently applied value of property slot i. -/
def D2DResource.valueAt (r : D2DResource) (i : Nat) : Option AppliedValue :=
  (r.values.find? (fun p => p.1 == i)).map (fun p => p.2)

/-- Currently bound image of input slot i. -/
def D2DResource.inputAt (r : D2DResource) (i : Nat) : Option Nat :=
  (r.boundInputs.find? (fun p => p.1 == i)).map (fun p => p.2)

/-- Device context: only the stable identity token of its device is ever
inspected (GetDevice followed by the IUnknown identity query). -/
structure DeviceContext where
  identity : Nat
deriving DecidableEq

mutual
/-- State of one CanvasEffect node: the effect id, the two change-tracked
vectors with their single changed flags, the previously seen device identity
(m_previousDeviceIdentity, a null pointer before the first realization) and
the cached resource (m_resource). -/
inductive EffectNode where
  | mk (effectId : Nat)
       (properties : List (Option PropVal)) (propertiesChanged : Bool)
       (inputs : List (Option EffectInput)) (inputsChanged : Bool)
       (previousDeviceIdentity : Option Nat)
       (resource : Option D2DResource)

/-- Entry of the inputs vector (an IEffectInput reference): another effect
node, a leaf image that supports the internal image interface and produces
the given device image id, or a reference whose query for that interface
fails with E_NOINTERFACE. -/
inductive EffectInput where
  | node (n : EffectNode)
  | leaf (imageId : Nat)
  | wrongType (tag : Nat)
end

def EffectNode.effectId : EffectNode → Nat
  | .mk e _ _ _ _ _ _ => e

def EffectNode.properties : EffectNode → List (Option PropVal)
  | .mk _ p _ _ _ _ _ => p

def EffectNode.propertiesChanged : EffectNode → Bool
  | .mk _ _ c _ _ _ _ => c

def EffectNode.inputs : EffectNode → List (Option EffectInput)
  | .mk _ _ _ i _ _ _ => i

def EffectNode.inputsChanged : EffectNode → Bool
  | .mk _ _ _ _ c _ _ => c

def EffectNode.previousDeviceIdentity : EffectNode → Option Nat
  | .mk _ _ _ _ _ d _ => d

def EffectNode.resource : EffectNode → Option D2DResource
  | .mk _ _ _ _ _ _ r => r

/-- Marshalling dispatch inside SetProperties: switch on the runtime type
tag, and for a float array on its length; only length 16 (a 4x4 matrix) is
implemented, every other length and every other tag throws E_NOTIMPL. -/
def marshalProperty : PropVal → Except HErr AppliedValue
  | .uint32 v => .ok (.vUint32 v)
  | .single v => .ok (.vSingle v)
  | .singleArray vs => if vs.length = 16 then .ok (.vMatrix4x4 vs) else .error .notImpl
  | .other _ => .error .notImpl

/-- Loop of SetProperties: walk the property slots starting at index i,
throwing E_POINTER on an empty slot and E_NOTIMPL on an unsupported encoding;
each recognised slot issues SetValue on the resource.  On failure the
SetValue calls already issued persist on the resource (no rollback). -/
def SetProperties (r : D2DResource) (i : Nat) :
    List (Option PropVal) → Except HErr Unit × D2DResource × List Event
  | [] => (.ok (), r, [])
  | none :: _ => (.error .nullPointer, r, [])
  | some pv :: rest =>
    match marshalProperty pv with
    | .error e => (.error e, r, [])
    | .ok v =>
      let out := SetProperties (r.setValue i v) (i + 1) rest
      (out.1, out.2.1, .setValue r.resId i v :: out.2.2)

/-- Result of the input-binding loop of GetD2DImage: the outcome, the
resource after the SetInput calls issued so far, the input slots (upstream
nodes are replaced by their post-realization states, since their member
mutations persist), the fresh-id counter, and the event trace. -/
structure InputsOut where
  result : Except HErr Unit
  res : D2DResource
  slots : List (Option EffectInput)
  ctr : Nat
  trace : List Event

/-- Result of GetD2DImage: the outcome (the image id of the resource on
success), the node state after the call (member mutations persist also when
the call throws), the fresh-id counter, the value of the wasRecreated local
of the source, and the event trace. -/
structure RealizeOut where
  result : Except HErr Nat
  node : EffectNode
  ctr : Nat
  wasRecreated : Bool
  trace : List Event

mutual
/-- Method CanvasEffect::GetD2DImage.  Compares the device identity of the
context with the previously seen one, resetting the resource and setting
wasRecreated on mismatch; lazily creates the resource when absent (without
touching wasRecreated, exactly as in the source); re-applies properties when
wasRecreated or the properties changed flag is set, clearing that flag on
success; likewise re-applies inputs, recursively realizing upstream nodes
against the same device context; finally returns the resource as an image.
The ctr argument supplies fresh resource ids for CreateEffect. -/
def GetD2DImage (dc : DeviceContext) (ctr : Nat) (n : EffectNode) : RealizeOut :=
  match n with
  | .mk eid props pCh inputs iCh prevId res =>
    let wr : Bool := decide (some dc.identity ≠ prevId)
    let prevId1 := if wr then some dc.identity else prevId
    let res0 := if wr then none else res
    let created := res0.isNone
    let r0 := res0.getD (D2DResource.fresh eid ctr)
    let ctr1 := if created then ctr + 1 else ctr
    let tr0 := Event.realizeCall dc.identity eid ::
      (if created then [Event.createEffect eid ctr] else [])
    match (if wr || pCh then SetProperties r0 0 props else (.ok (), r0, [])) with
    | (.error e, r1, _trP) =>
      ⟨.error e, .mk eid props pCh inputs iCh prevId1 (some r1), ctr1, wr, tr0 ++ _trP⟩
    | (.ok _, r1, trP) =>
      let pCh1 : Bool := if wr || pCh then false else pCh
      if wr || iCh then
        let r2 := r1.setInputCount inputs.length
        let io := ApplyInputs dc ctr1 r2 0 inputs
        let tr := tr0 ++ trP ++ (Event.setInputCount r1.resId inputs.length :: io.trace)
        match io.result with
        | .error e =>
          ⟨.error e, .mk eid props pCh1 io.slots iCh prevId1 (some io.res), io.ctr, wr, tr⟩
        | .ok _ =>
          ⟨.ok io.res.resId, .mk eid props pCh1 io.slots false prevId1 (some io.res),
            io.ctr, wr, tr⟩
      else
        ⟨.ok r1.resId, .mk eid props pCh1 inputs iCh prevId1 (some r1), ctr1, wr, tr0 ++ trP⟩

/-- Input-binding loop of GetD2DImage, walking the slots from index i: an
empty slot throws E_POINTER; a reference that does not support the internal
image interface throws E_NOINTERFACE carrying the slot index; otherwise the
upstream image is obtained (recursively realizing upstream effect nodes
against the same device context) and bound with SetInput. -/
def ApplyInputs (dc : DeviceContext) (ctr : Nat) (r : D2DResource) (i : Nat) :
    List (Option EffectInput) → InputsOut
  | [] => ⟨.ok (), r, [], ctr, []⟩
  | none :: rest => ⟨.error .nullPointer, r, none :: rest, ctr, []⟩
  | some (.wrongType t) :: rest =>
    ⟨.error (.noInterface i), r, some (.wrongType t) :: rest, ctr, []⟩
  | some (.leaf img) :: rest =>
    let io := ApplyInputs dc ctr (r.setInput i img) (i + 1) rest
    ⟨io.result, io.res, some (.leaf img) :: io.slots, io.ctr,
      Event.setInput r.resId i img :: io.trace⟩
  | some (.node m) :: rest =>
    let ro := GetD2DImage dc ctr m
    match ro.result with
    | .error e => ⟨.error e, r, some (.node ro.node) :: rest, ro.ctr, ro.trace⟩
    | .ok img =>
      let io := ApplyInputs dc ro.ctr (r.setInput i img) (i + 1) rest
      ⟨io.result, io.res, some (.node ro.node) :: io.slots, io.ctr,
        ro.trace ++ (Event.setInput r.resId i img :: io.trace)⟩
end

/-- Constructor CanvasEffect::CanvasEffect.  The Vector collaborator is not
part of this file; modelled from the spec: making a Vector of a given size
yields that many empty slots with the changed flag initially clear, so after
the constructor body only the inputs vector is marked changed (the source
calls SetChanged(true) on m_inputs alone).  The fixed-size flag of the
inputs vector only configures growth operations, which no modelled path
uses, so it is accepted and ignored. -/
def canvasEffect (effectId propertiesSize inputSize : Nat)
    (_isInputSizeFixed : Bool) : EffectNode :=
  .mk effectId (List.replicate propertiesSize none) false
    (List.replicate inputSize none) true none none

/-- Method CanvasEffect::Close: reset m_resource and return S_OK. -/
def Close (n : EffectNode) : HRes × EffectNode :=
  match n with
  | .mk eid props pCh inputs iCh prevId _ =>
    (HRes.sOk, .mk eid props pCh inputs iCh prevId none)

/-- Method CanvasEffect::SetInput: a null input throws (CheckInPointer);
otherwise the slot is written through the inputs vector.  Modelled from the
spec: the Vector collaborator's element write bounds-checks the index
(OutOfRange) and marks the whole sequence changed. -/
def SetInputAt (n : EffectNode) (index : Nat) (input : Option EffectInput) :
    Except HErr EffectNode :=
  match input with
  | none => .error .nullPointer
  | some inp =>
    match n with
    | .mk eid props pCh inputs _iCh prevId res =>
      if index < inputs.length then
        .ok (.mk eid props pCh (inputs.set index (some inp)) true prevId res)
      else
        .error .outOfRange

/-- Event classifier: SetValue calls. -/
def Event.isSetValue : Event → Bool
  | .setValue _ _ _ => true
  | _ => false

/-- Event classifier: SetInput calls. -/
def Event.isSetInput : Event → Bool
  | .setInput _ _ _ => true
  | _ => false

/-- Event classifier: SetInputCount calls. -/
def Event.isSetInputCount : Event → Bool
  | .setInputCount _ _ => true
  | _ => false

/-- Event classifier: CreateEffect calls. -/
def Event.isCreateEffect : Event → Bool
  | .createEffect _ _ => true
  | _ => false

/-- Event classifier: entries into GetD2DImage of an effect node. -/
def Event.isRealizeCall : Event → Bool
  | .realizeCall _ _ => true
  | _ => false

/-- Number of effect-node realizations recorded in a trace. -/
def countRealizeCalls (tr : List Event) : Nat :=
  (tr.filter Event.isRealizeCall).length

/-! Basic facts about the resource mutators. -/

@[simp]
theorem resId_setValue (r : D2DResource) (i : Nat) (v : AppliedValue) :
    (r.setValue i v).resId = r.resId := rfl

@[simp]
theorem resId_setInputCount (r : D2DResource) (c : Nat) :
    (r.setInputCount c).resId = r.resId := rfl

@[simp]
theorem resId_setInput (r : D2DResource) (i img : Nat) :
    (r.setInput i img).resId = r.resId := rfl

/-! Facts about the properties-apply loop. -/

/-- SetProperties never changes which resource instance it works on. -/
theorem setProperties_resId (l : List (Option PropVal)) (r : D2DResource) (i : Nat) :
    ((SetProperties r i l).2.1).resId = r.resId := by
  induction l generalizing r i with
  | nil => simp [SetProperties]
  | cons x rest ih =>
    cases x with
    | none => simp [SetProperties]
    | some pv =>
      cases hm : marshalProperty pv with
      | error e => simp [SetProperties, hm]
      | ok v => simpa [SetProperties, hm] using ih (r.setValue i v) (i + 1)

/-- Every event recorded by SetProperties is a SetValue call. -/
theorem setProperties_trace_setValue (l : List (Option PropVal)) (r : D2DResource) (i : Nat) :
    ∀ e ∈ (SetProperties r i l).2.2, e.isSetValue = true := by
  induction l generalizing r i with
  | nil => simp [SetProperties]
  | cons x rest ih =>
    cases x with
    | none => simp [SetProperties]
    | some pv =>
      cases hm : marshalProperty pv with
      | error e => simp [SetProperties, hm]
      | ok v =>
        intro e he
        simp only [SetProperties, hm, List.mem_cons] at he
        rcases he with he | he
        · subst he; rfl
        · exact ih (r.setValue i v) (i + 1) e he

/-- On success, SetProperties issued a SetValue call for every slot. -/
theorem setProperties_ok_setValue (l : List (Option PropVal)) (r : D2DResource) (i : Nat)
    (h : (SetProperties r i l).1 = .ok ()) :
    ∀ j < l.length, ∃ v, Event.setValue r.resId (i + j) v ∈ (SetProperties r i l).2.2 := by
  induction l generalizing r i with
  | nil => simp
  | cons x rest ih =>
    cases x with
    | none => simp [SetProperties] at h
    | some pv =>
      cases hm : marshalProperty pv with
      | error e => simp [SetProperties, hm] at h
      | ok v =>
        simp only [SetProperties, hm] at h ⊢
        intro j hj
        cases j with
        | zero => exact ⟨v, by simp⟩
        | succ j =>
          have hj' : j < rest.length := by simpa using hj
          obtain ⟨w, hw⟩ := ih (r.setValue i v) (i + 1) h j hj'
          refine ⟨w, ?_⟩
          have : i + 1 + j = i + (j + 1) := by omega
          simp only [resId_setValue, this] at hw
          exact List.mem_cons_of_mem _ hw

/-! Facts about the input-binding loop. -/

/-- ApplyInputs never changes which resource instance it works on. -/
theorem applyInputs_resId (l : List (Option EffectInput)) (dc : DeviceContext)
    (ctr : Nat) (r : D2DResource) (i : Nat) :
    ((ApplyInputs dc ctr r i l).res).resId = r.resId := by
  induction l generalizing r i ctr with
  | nil => simp [ApplyInputs]
  | cons x rest ih =>
    cases x with
    | none => simp [ApplyInputs]
    | some inp =>
      cases inp with
      | wrongType t => simp [ApplyInputs]
      | leaf img => simpa [ApplyInputs] using ih ctr (r.setInput i img) (i + 1)
      | node m =>
        cases hro : (GetD2DImage dc ctr m).result with
        | error e => simp [ApplyInputs, hro]
        | ok img =>
          simpa [ApplyInputs, hro] using
            ih (GetD2DImage dc ctr m).ctr (r.setInput i img) (i + 1)

/-- On success, ApplyInputs issued a SetInput call for every slot. -/
theorem applyInputs_ok_setInput (l : List (Option EffectInput)) (dc : DeviceContext)
    (ctr : Nat) (r : D2DResource) (i : Nat)
    (h : (ApplyInputs dc ctr r i l).result = .ok ()) :
    ∀ j < l.length, ∃ im, Event.setInput r.resId (i + j) im ∈ (ApplyInputs dc ctr r i l).trace := by
  induction l generalizing r i ctr with
  | nil => simp
  | cons x rest ih =>
    cases x with
    | none => simp [ApplyInputs] at h
    | some inp =>
      cases inp with
      | wrongType t => simp [ApplyInputs] at h
      | leaf img =>
        simp only [ApplyInputs] at h ⊢
        intro j hj
        cases j with
        | zero => exact ⟨img, by simp⟩
        | succ j =>
          have hj' : j < rest.length := by simpa using hj
          obtain ⟨im, him⟩ := ih ctr (r.setInput i img) (i + 1) h j hj'
          refine ⟨im, ?_⟩
          have harith : i + 1 + j = i + (j + 1) := by omega
          simp only [resId_setInput, harith] at him
          exact List.mem_cons_of_mem _ him
      | node m =>
        cases hro : (GetD2DImage dc ctr m).result with
        | error e => simp [ApplyInputs, hro] at h
        | ok img =>
          simp only [ApplyInputs, hro] at h ⊢
          intro j hj
          cases j with
          | zero => exact ⟨img, by simp⟩
          | succ j =>
            have hj' : j < rest.length := by simpa using hj
            obtain ⟨im, him⟩ :=
              ih (GetD2DImage dc ctr m).ctr (r.setInput i img) (i + 1) h j hj'
            refine ⟨im, ?_⟩
            have harith : i + 1 + j = i + (j + 1) := by omega
            simp only [resId_setInput, harith] at him
            exact List.mem_append_right _ (List.mem_cons_of_mem _ him)

/-! Characterizations of whole realization calls. -/

/-- Realizing a node that is already bound to the identity of the device
context, holds a resource, and has both changed flags clear does nothing
observable: no resource creation, no SetValue, no SetInputCount, no
SetInput, the node state is returned unchanged, and the image is the one
exposed by the cached resource. -/
theorem getD2DImage_stable (dc : DeviceContext) (ctr : Nat) (eid : Nat)
    (props : List (Option PropVal)) (slots : List (Option EffectInput)) (r : D2DResource) :
    GetD2DImage dc ctr (.mk eid props false slots false (some dc.identity) (some r)) =
      ⟨.ok r.resId, .mk eid props false slots false (some dc.identity) (some r), ctr, false,
        [.realizeCall dc.identity eid]⟩ := by
  simp [GetD2DImage]


/-- Collapsing the flag update: clear when the step ran, keep otherwise. -/
theorem if_flag_false (b : Bool) : (if b = true then false else b) = false := by
  cases b <;> rfl

theorem getD2DImage_ok_post (dc : DeviceContext) (ctr : Nat) (n : EffectNode) (img : Nat)
    (h : (GetD2DImage dc ctr n).result = .ok img) :
    ∃ r slots,
      (GetD2DImage dc ctr n).node =
        .mk n.effectId n.properties false slots false (some dc.identity) (some r) ∧
      img = r.resId := by
  cases n with
  | mk eid props pCh inputs iCh prevId res =>
    simp only [EffectNode.effectId, EffectNode.properties]
    revert h
    by_cases hid : some dc.identity = prevId
    · subst hid
      have hwr : (decide (some dc.identity ≠ some dc.identity)) = false := by simp
      simp only [GetD2DImage, hwr]
      simp
      split
      next e r1 trP heq => intro h; simp at h
      next u r1 trP heq =>
        split
        next hin =>
          split
          next e heq2 => intro h; simp at h
          next u2 heq2 =>
            intro h
            simp only [RealizeOut.result, Except.ok.injEq] at h
            subst h
            simp only [RealizeOut.node, if_flag_false]
            exact ⟨_, ⟨_, rfl⟩, rfl⟩
        next hin =>
          intro h
          simp only [RealizeOut.result, Except.ok.injEq] at h
          subst h
          have hic : iCh = false := by simpa using hin
          subst hic
          simp only [RealizeOut.node, if_flag_false]
          exact ⟨_, ⟨_, rfl⟩, rfl⟩
    · have hwr : (decide (some dc.identity ≠ prevId)) = true := by simp [hid]
      simp only [GetD2DImage, hwr]
      simp
      split
      next e r1 trP heq => intro h; simp at h
      next u r1 trP heq =>
        split
        next e heq2 => intro h; simp at h
        next u2 heq2 =>
          intro h
          simp only [RealizeOut.result, Except.ok.injEq] at h
          subst h
          simp only [RealizeOut.node, if_flag_false]
          exact ⟨_, ⟨_, rfl⟩, rfl⟩


/-- Claim C2: if getImage succeeds and is called again with a device context
of the same device identity, no intervening mutation and no close, then the
second call performs no property application (no SetValue) and no input
application (no SetInputCount, no SetInput) and no resource creation: its
whole device-call trace is the single realization-entry event; it returns
the node unchanged and an image obtained from the same resource instance
(the resource cached by the first call, whose image id the first call
returned). -/
theorem claim2_idempotence (dc : DeviceContext) (ctr ctr2 : Nat) (n : EffectNode) (img : Nat)
    (h : (GetD2DImage dc ctr n).result = .ok img) :
    ∃ r, (GetD2DImage dc ctr n).node.resource = some r ∧ img = r.resId ∧
      GetD2DImage dc ctr2 ((GetD2DImage dc ctr n).node) =
        ⟨.ok img, (GetD2DImage dc ctr n).node, ctr2, false,
          [.realizeCall dc.identity ((GetD2DImage dc ctr n).node.effectId)]⟩ := by
  obtain ⟨r, slots, hnode, himg⟩ := getD2DImage_ok_post dc ctr n img h
  refine ⟨r, ?_, himg, ?_⟩
  · rw [hnode]; rfl
  · rw [hnode, getD2DImage_stable]
    subst himg
    rfl

/-- Witness for claim C2: a concrete effect node realized twice against the
same device identity. -/
theorem claim2_idempotence_witness :
    ∃ r, (GetD2DImage ⟨0⟩ 0 (canvasEffect 3 0 0 true)).node.resource = some r ∧
      0 = r.resId ∧
      GetD2DImage ⟨0⟩ 5 ((GetD2DImage ⟨0⟩ 0 (canvasEffect 3 0 0 true)).node) =
        ⟨.ok 0, (GetD2DImage ⟨0⟩ 0 (canvasEffect 3 0 0 true)).node, 5, false,
          [.realizeCall 0 ((GetD2DImage ⟨0⟩ 0 (canvasEffect 3 0 0 true)).node.effectId)]⟩ :=
  claim2_idempotence ⟨0⟩ 0 5 (canvasEffect 3 0 0 true) 0 rfl

/-- Claim C3: realizing against a device context whose identity differs from
the stored one sets wasRecreated, records the new identity, creates a fresh
resource (any resource held afterwards is the one with the fresh id, so the
old instance was released), and, when the call succeeds, re-applied every
property slot and every input slot against the fresh resource, regardless of
the changed flags. -/
theorem claim3_device_invalidation (dc : DeviceContext) (ctr : Nat) (n : EffectNode)
    (h : n.previousDeviceIdentity ≠ some dc.identity) :
    (GetD2DImage dc ctr n).wasRecreated = true ∧
    (GetD2DImage dc ctr n).node.previousDeviceIdentity = some dc.identity ∧
    Event.createEffect n.effectId ctr ∈ (GetD2DImage dc ctr n).trace ∧
    (∀ r, (GetD2DImage dc ctr n).node.resource = some r → r.resId = ctr) ∧
    (∀ img, (GetD2DImage dc ctr n).result = .ok img →
      (∀ j, j < n.properties.length →
        ∃ v, Event.setValue ctr j v ∈ (GetD2DImage dc ctr n).trace) ∧
      Event.setInputCount ctr n.inputs.length ∈ (GetD2DImage dc ctr n).trace ∧
      (∀ j, j < n.inputs.length →
        ∃ im, Event.setInput ctr j im ∈ (GetD2DImage dc ctr n).trace)) := by
  cases n with
  | mk eid props pCh inputs iCh prevId res =>
    simp only [EffectNode.previousDeviceIdentity] at h
    simp only [EffectNode.effectId, EffectNode.properties, EffectNode.inputs]
    have hwr : (decide (some dc.identity ≠ prevId)) = true := decide_eq_true (Ne.symm h)
    simp only [GetD2DImage, hwr]
    simp
    split
    next e r1 trP heq =>
      refine ⟨rfl, rfl, ?_, ?_, ?_⟩
      · simp
      · intro r hr
        simp only [RealizeOut.node, EffectNode.resource, Option.some.injEq] at hr
        subst hr
        have hx := setProperties_resId props (D2DResource.fresh eid ctr) 0
        rw [heq] at hx
        simpa [D2DResource.fresh] using hx
      · intro img himg
        simp at himg
    next u r1 trP heq =>
      have hr1 : r1.resId = ctr := by
        have hx := setProperties_resId props (D2DResource.fresh eid ctr) 0
        rw [heq] at hx
        simpa [D2DResource.fresh] using hx
      have h1 : (SetProperties (D2DResource.fresh eid ctr) 0 props).1 = .ok () := by
        rw [heq]
      split
      next e heq2 =>
        refine ⟨rfl, rfl, ?_, ?_, ?_⟩
        · simp
        · intro r hr
          simp only [RealizeOut.node, EffectNode.resource, Option.some.injEq] at hr
          subst hr
          have hx := applyInputs_resId inputs dc (ctr + 1) (r1.setInputCount inputs.length) 0
          simpa [hr1] using hx
        · intro img himg
          simp at himg
      next u2 heq2 =>
        have h2 : (ApplyInputs dc (ctr + 1) (r1.setInputCount inputs.length) 0 inputs).result
            = .ok () := by rw [heq2]
        refine ⟨rfl, rfl, ?_, ?_, ?_⟩
        · simp
        · intro r hr
          simp only [RealizeOut.node, EffectNode.resource, Option.some.injEq] at hr
          subst hr
          have hx := applyInputs_resId inputs dc (ctr + 1) (r1.setInputCount inputs.length) 0
          simpa [hr1] using hx
        · intro img himg
          refine ⟨?_, ?_, ?_⟩
          · intro j hj
            obtain ⟨v, hv⟩ :=
              setProperties_ok_setValue props (D2DResource.fresh eid ctr) 0 h1 j hj
            rw [heq] at hv
            simp only [D2DResource.fresh, Nat.zero_add] at hv
            refine ⟨v, ?_⟩
            simp only [RealizeOut.trace]
            simp [List.mem_append]
            tauto
          · have hm : Event.setInputCount ctr inputs.length =
                Event.setInputCount r1.resId inputs.length := by rw [hr1]
            rw [hm]
            simp only [RealizeOut.trace]
            simp [List.mem_append]
          · intro j hj
            obtain ⟨im, him⟩ :=
              applyInputs_ok_setInput inputs dc (ctr + 1)
                (r1.setInputCount inputs.length) 0 h2 j hj
            simp only [resId_setInputCount, hr1, Nat.zero_add] at him
            refine ⟨im, ?_⟩
            simp only [RealizeOut.trace]
            simp [List.mem_append]
            tauto


/-- Witness for claim C3: a node previously bound to device identity 1 with
both changed flags clear, realized against device identity 2. -/
theorem claim3_device_invalidation_witness :
    (GetD2DImage ⟨2⟩ 7 (.mk 4 [some (.uint32 9)] false [some (.leaf 5)] false (some 1)
        (some (D2DResource.fresh 4 0)))).wasRecreated = true ∧
    (GetD2DImage ⟨2⟩ 7 (.mk 4 [some (.uint32 9)] false [some (.leaf 5)] false (some 1)
        (some (D2DResource.fresh 4 0)))).node.previousDeviceIdentity = some 2 ∧
    Event.createEffect (EffectNode.mk 4 [some (.uint32 9)] false [some (.leaf 5)] false (some 1)
        (some (D2DResource.fresh 4 0))).effectId 7 ∈
      (GetD2DImage ⟨2⟩ 7 (.mk 4 [some (.uint32 9)] false [some (.leaf 5)] false (some 1)
        (some (D2DResource.fresh 4 0)))).trace ∧
    (∀ r, (GetD2DImage ⟨2⟩ 7 (.mk 4 [some (.uint32 9)] false [some (.leaf 5)] false (some 1)
        (some (D2DResource.fresh 4 0)))).node.resource = some r → r.resId = 7) ∧
    (∀ img, (GetD2DImage ⟨2⟩ 7 (.mk 4 [some (.uint32 9)] false [some (.leaf 5)] false (some 1)
        (some (D2DResource.fresh 4 0)))).result = .ok img →
      (∀ j, j < (EffectNode.mk 4 [some (.uint32 9)] false [some (.leaf 5)] false (some 1)
          (some (D2DResource.fresh 4 0))).properties.length →
        ∃ v, Event.setValue 7 j v ∈
          (GetD2DImage ⟨2⟩ 7 (.mk 4 [some (.uint32 9)] false [some (.leaf 5)] false (some 1)
            (some (D2DResource.fresh 4 0)))).trace) ∧
      Event.setInputCount 7 (EffectNode.mk 4 [some (.uint32 9)] false [some (.leaf 5)] false
          (some 1) (some (D2DResource.fresh 4 0))).inputs.length ∈
        (GetD2DImage ⟨2⟩ 7 (.mk 4 [some (.uint32 9)] false [some (.leaf 5)] false (some 1)
          (some (D2DResource.fresh 4 0)))).trace ∧
      (∀ j, j < (EffectNode.mk 4 [some (.uint32 9)] false [some (.leaf 5)] false (some 1)
          (some (D2DResource.fresh 4 0))).inputs.length →
        ∃ im, Event.setInput 7 j im ∈
          (GetD2DImage ⟨2⟩ 7 (.mk 4 [some (.uint32 9)] false [some (.leaf 5)] false (some 1)
            (some (D2DResource.fresh 4 0)))).trace)) :=
  claim3_device_invalidation ⟨2⟩ 7
    (.mk 4 [some (.uint32 9)] false [some (.leaf 5)] false (some 1)
      (some (D2DResource.fresh 4 0))) (by decide)

/-- Claim C9: Close mutates only the resource handle: every other field of
the node is unchanged, the result is always S_OK (also when no resource is
bound), and a second Close returns S_OK with the same node again, so Close
is idempotent. -/
theorem claim9_close_frame (n : EffectNode) :
    (Close n).1 = HRes.sOk ∧
    (Close n).2.effectId = n.effectId ∧
    (Close n).2.properties = n.properties ∧
    (Close n).2.propertiesChanged = n.propertiesChanged ∧
    (Close n).2.inputs = n.inputs ∧
    (Close n).2.inputsChanged = n.inputsChanged ∧
    (Close n).2.previousDeviceIdentity = n.previousDeviceIdentity ∧
    (Close n).2.resource = none ∧
    Close ((Close n).2) = Close n := by
  cases n with
  | mk eid props pCh inputs iCh prevId res =>
    exact ⟨rfl, rfl, rfl, rfl, rfl, rfl, rfl, rfl, rfl⟩

/-- Claim C10: construction leaves the properties-changed flag clear, the
inputs-changed flag set and no previously seen device identity, so the very
first realization against any device context takes the identity-mismatch
branch (wasRecreated true) and hence runs both apply steps: with at least
one (necessarily still empty) property slot the properties step runs despite
its clear flag and throws E_POINTER, and with no property slots the inputs
step runs, observable through the SetInputCount call on the fresh
resource. -/
theorem claim10_construction (eid p k : Nat) (fixed : Bool) (dc : DeviceContext) (ctr : Nat) :
    (canvasEffect eid p k fixed).propertiesChanged = false ∧
    (canvasEffect eid p k fixed).inputsChanged = true ∧
    (canvasEffect eid p k fixed).previousDeviceIdentity = none ∧
    (GetD2DImage dc ctr (canvasEffect eid p k fixed)).wasRecreated = true ∧
    Event.createEffect eid ctr ∈ (GetD2DImage dc ctr (canvasEffect eid p k fixed)).trace ∧
    (0 < p →
      (GetD2DImage dc ctr (canvasEffect eid p k fixed)).result = .error .nullPointer) ∧
    (p = 0 →
      Event.setInputCount ctr k ∈ (GetD2DImage dc ctr (canvasEffect eid p k fixed)).trace) := by
  cases p with
  | succ q =>
    refine ⟨rfl, rfl, rfl, rfl, ?_, fun _ => rfl, ?_⟩
    · simp [GetD2DImage, canvasEffect, SetProperties]
    · intro hp
      simp at hp
  | zero =>
    cases k with
    | zero =>
      refine ⟨rfl, rfl, rfl, rfl, ?_, ?_, ?_⟩
      · simp [GetD2DImage, canvasEffect, SetProperties, ApplyInputs]
      · intro hp
        simp at hp
      · intro _
        simp [GetD2DImage, canvasEffect, SetProperties, ApplyInputs, D2DResource.fresh]
    | succ m =>
      refine ⟨rfl, rfl, rfl, rfl, ?_, ?_, ?_⟩
      · simp [GetD2DImage, canvasEffect, SetProperties, ApplyInputs]
      · intro hp
        simp at hp
      · intro _
        simp [GetD2DImage, canvasEffect, SetProperties, ApplyInputs, D2DResource.fresh]

/-- Witness for claim C10 at concrete construction parameters, once with a
property slot and once without. -/
theorem claim10_construction_witness :
    ((canvasEffect 3 1 0 true).propertiesChanged = false ∧
      (canvasEffect 3 1 0 true).inputsChanged = true ∧
      (canvasEffect 3 1 0 true).previousDeviceIdentity = none ∧
      (GetD2DImage ⟨6⟩ 0 (canvasEffect 3 1 0 true)).wasRecreated = true ∧
      Event.createEffect 3 0 ∈ (GetD2DImage ⟨6⟩ 0 (canvasEffect 3 1 0 true)).trace ∧
      (GetD2DImage ⟨6⟩ 0 (canvasEffect 3 1 0 true)).result = .error .nullPointer) ∧
    Event.setInputCount 0 2 ∈ (GetD2DImage ⟨6⟩ 0 (canvasEffect 3 0 2 true)).trace := by
  have h1 := claim10_construction 3 1 0 true ⟨6⟩ 0
  have h2 := claim10_construction 3 0 2 true ⟨6⟩ 0
  exact ⟨⟨h1.1, h1.2.1, h1.2.2.1, h1.2.2.2.1, h1.2.2.2.2.1,
    h1.2.2.2.2.2.1 (by decide)⟩, h2.2.2.2.2.2.2 rfl⟩

/-- Claim C1 evaluation at the failing input: a node with one property and
one input is realized successfully on device 0, Close releases the resource,
and getImage is called again on device 0.  The call creates a fresh resource
(the resource handle was empty) yet wasRecreated stays false and neither
properties nor inputs are re-applied: the trace holds only the entry and
creation events and the node ends up holding a resource with no applied
values and no bound inputs.  The claim (and the spec) require wasRecreated
to be set and all slots to be re-applied whenever a fresh resource is
created. -/
theorem claim1_close_no_reapply :
    (GetD2DImage ⟨0⟩ 0
        (.mk 1 [some (.uint32 42)] true [some (.leaf 9)] true none none)).result = .ok 0 ∧
    (Close (GetD2DImage ⟨0⟩ 0
        (.mk 1 [some (.uint32 42)] true [some (.leaf 9)] true none none)).node).2.resource
      = none ∧
    (GetD2DImage ⟨0⟩ 5 (Close (GetD2DImage ⟨0⟩ 0
        (.mk 1 [some (.uint32 42)] true [some (.leaf 9)] true none
          none)).node).2).wasRecreated = false ∧
    (GetD2DImage ⟨0⟩ 5 (Close (GetD2DImage ⟨0⟩ 0
        (.mk 1 [some (.uint32 42)] true [some (.leaf 9)] true none
          none)).node).2).result = .ok 5 ∧
    (GetD2DImage ⟨0⟩ 5 (Close (GetD2DImage ⟨0⟩ 0
        (.mk 1 [some (.uint32 42)] true [some (.leaf 9)] true none
          none)).node).2).trace = [.realizeCall 0 1, .createEffect 1 5] ∧
    (GetD2DImage ⟨0⟩ 5 (Close (GetD2DImage ⟨0⟩ 0
        (.mk 1 [some (.uint32 42)] true [some (.leaf 9)] true none
          none)).node).2).node.resource = some (D2DResource.fresh 1 5) :=
  ⟨rfl, rfl, rfl, rfl, rfl, rfl⟩

/-- Counterexample to claim C6: a freshly constructed node with one
(necessarily empty) property slot has the properties-changed flag clear, yet
the first realization runs the properties step (wasRecreated) and that step
throws E_POINTER part-way.  Contrary to the claim, the failure does not
leave the properties-changed flag set, and the next realization call against
the same device does not retry the properties step: it completes
successfully without issuing a single SetValue, leaving a resource with no
applied values. -/
theorem claim6_counterexample :
    (GetD2DImage ⟨0⟩ 0 (canvasEffect 1 1 0 true)).result = .error .nullPointer ∧
    (GetD2DImage ⟨0⟩ 0 (canvasEffect 1 1 0 true)).wasRecreated = true ∧
    (GetD2DImage ⟨0⟩ 0 (canvasEffect 1 1 0 true)).node.propertiesChanged = false ∧
    (GetD2DImage ⟨0⟩ 1 ((GetD2DImage ⟨0⟩ 0 (canvasEffect 1 1 0 true)).node)).result = .ok 0 ∧
    ((GetD2DImage ⟨0⟩ 1 ((GetD2DImage ⟨0⟩ 0 (canvasEffect 1 1 0 true)).node)).trace.filter
        Event.isSetValue) = [] ∧
    (GetD2DImage ⟨0⟩ 1 ((GetD2DImage ⟨0⟩ 0
        (canvasEffect 1 1 0 true)).node)).node.resource = some ⟨0, 1, 0, [], []⟩ :=
  ⟨rfl, rfl, rfl, rfl, rfl, rfl⟩


/-- Outcome test for the apply-step subroutines. -/
def okU : Except HErr Unit → Bool
  | .ok _ => true
  | .error _ => false

/-- Amended claim C6: each changed flag is set to false exactly when its
apply step ran (because wasRecreated or because that flag was set) and
completed without failure, and is left unchanged otherwise; the inputs step
only runs when the properties step did not throw.  In particular a failure
part-way through an apply step never clears a flag, so a flag that was set
before a failed call is still set afterwards and that step reruns on the
next call; but a step that ran only because wasRecreated while its flag was
clear leaves the flag clear after a failure, which is the case refuting the
original claim (see the counterexample).  The hypotheses just name the
results of the two internal apply subroutine calls. -/
theorem claim6_amended_flags (dc : DeviceContext) (ctr : Nat) (n : EffectNode)
    (pr : Except HErr Unit) (r1 : D2DResource) (trP : List Event) (io : InputsOut)
    (hP : (if (decide (some dc.identity ≠ n.previousDeviceIdentity) || n.propertiesChanged)
        then SetProperties ((if decide (some dc.identity ≠ n.previousDeviceIdentity) then none
          else n.resource).getD (D2DResource.fresh n.effectId ctr)) 0 n.properties
        else (.ok (), (if decide (some dc.identity ≠ n.previousDeviceIdentity) then none
          else n.resource).getD (D2DResource.fresh n.effectId ctr), [])) = (pr, r1, trP))
    (hI : ApplyInputs dc
        (if ((if decide (some dc.identity ≠ n.previousDeviceIdentity) then none
          else n.resource)).isNone then ctr + 1 else ctr)
        (r1.setInputCount n.inputs.length) 0 n.inputs = io) :
    ((GetD2DImage dc ctr n).node.propertiesChanged =
      if (decide (some dc.identity ≠ n.previousDeviceIdentity) || n.propertiesChanged)
          && okU pr then false else n.propertiesChanged) ∧
    ((GetD2DImage dc ctr n).node.inputsChanged =
      if (decide (some dc.identity ≠ n.previousDeviceIdentity) || n.propertiesChanged)
          && !(okU pr) then n.inputsChanged
      else if (decide (some dc.identity ≠ n.previousDeviceIdentity) || n.inputsChanged)
          && okU io.result then false else n.inputsChanged) := by
  cases n with
  | mk eid props pCh inputs iCh prevId res =>
    simp only [EffectNode.previousDeviceIdentity, EffectNode.resource, EffectNode.effectId,
      EffectNode.properties, EffectNode.inputs, EffectNode.propertiesChanged,
      EffectNode.inputsChanged] at hP hI ⊢
    obtain ⟨ir, r2, slots2, ctr2, tr2⟩ := io
    simp only [GetD2DImage]
    cases hranP : (decide (some dc.identity ≠ prevId) || pCh) with
    | false =>
      rw [hranP] at hP
      simp only [Bool.false_eq_true, if_false, Prod.mk.injEq] at hP
      obtain ⟨hpr, hr1, htrP⟩ := hP
      subst hpr
      subst hr1
      subst htrP
      simp only [Bool.false_eq_true, if_false]
      cases hranI : (decide (some dc.identity ≠ prevId) || iCh) with
      | false => simp [okU]
      | true =>
        simp only [eq_self_iff_true, if_true]
        rw [hI]
        cases ir with
        | error e => simp [okU]
        | ok u2 => simp [okU]
    | true =>
      rw [hranP] at hP
      simp only [eq_self_iff_true, if_true] at hP
      simp only [eq_self_iff_true, if_true]
      rw [hP]
      cases pr with
      | error e => simp [okU]
      | ok u =>
        cases hranI : (decide (some dc.identity ≠ prevId) || iCh) with
        | false => simp [okU]
        | true =>
          simp only [eq_self_iff_true, if_true]
          rw [hI]
          cases ir with
          | error e => simp [okU]
          | ok u2 => simp [okU]

/-- Witness for the amended claim C6 at a concrete already-bound node whose
properties flag is set: the successful pass clears both flags. -/
theorem claim6_amended_flags_witness :
    (GetD2DImage ⟨0⟩ 0 (.mk 2 [some (.uint32 1)] true [] false (some 0)
        (some (D2DResource.fresh 2 9)))).node.propertiesChanged = false ∧
    (GetD2DImage ⟨0⟩ 0 (.mk 2 [some (.uint32 1)] true [] false (some 0)
        (some (D2DResource.fresh 2 9)))).node.inputsChanged = false := by
  have h := claim6_amended_flags ⟨0⟩ 0
    (.mk 2 [some (.uint32 1)] true [] false (some 0) (some (D2DResource.fresh 2 9)))
    (.ok ()) ⟨9, 2, 0, [(0, .vUint32 1)], []⟩ [.setValue 9 0 (.vUint32 1)]
    ⟨.ok (), ⟨9, 2, 0, [(0, .vUint32 1)], []⟩, [], 0, []⟩ rfl rfl
  exact ⟨h.1.trans rfl, h.2.trans rfl⟩


/-- The properties-apply loop emits no realization events. -/
theorem countRealizeCalls_setProperties (l : List (Option PropVal)) (r : D2DResource)
    (i : Nat) : countRealizeCalls (SetProperties r i l).2.2 = 0 := by
  have h := setProperties_trace_setValue l r i
  simp only [countRealizeCalls, List.length_eq_zero, List.filter_eq_nil_iff]
  intro e he
  have he2 := h e he
  cases e <;> simp_all [Event.isSetValue, Event.isRealizeCall]

/-- A realization that throws never changes the inputs-changed flag. -/
theorem getD2DImage_error_inputsFlag (dc : DeviceContext) (ctr : Nat) (n : EffectNode)
    (e : HErr) (h : (GetD2DImage dc ctr n).result = .error e) :
    (GetD2DImage dc ctr n).node.inputsChanged = n.inputsChanged := by
  cases n with
  | mk eid props pCh inputs iCh prevId res =>
    simp only [EffectNode.inputsChanged]
    revert h
    by_cases hid : some dc.identity = prevId
    · subst hid
      have hwr : (decide (some dc.identity ≠ some dc.identity)) = false := by simp
      simp only [GetD2DImage, hwr]
      simp
      split
      next e2 r1 trP heq => intro h; rfl
      next u r1 trP heq =>
        split
        next hin =>
          split
          next e2 heq2 => intro h; rfl
          next u2 heq2 => intro h; simp at h
        next hin => intro h; simp at h
    · have hwr : (decide (some dc.identity ≠ prevId)) = true := by simp [hid]
      simp only [GetD2DImage, hwr]
      simp
      split
      next e2 r1 trP heq => intro h; rfl
      next u r1 trP heq =>
        split
        next e2 heq2 => intro h; rfl
        next u2 heq2 => intro h; simp at h

/-- A failure of the properties-apply step propagates as the result of the
realization and leaves a set properties-changed flag set. -/
theorem getD2DImage_propsFail (dc : DeviceContext) (ctr : Nat) (n : EffectNode) (e : HErr)
    (hP : (SetProperties ((if decide (some dc.identity ≠ n.previousDeviceIdentity) then none
        else n.resource).getD (D2DResource.fresh n.effectId ctr)) 0 n.properties).1
      = .error e)
    (hCh : n.propertiesChanged = true) :
    (GetD2DImage dc ctr n).result = .error e ∧
    (GetD2DImage dc ctr n).node.propertiesChanged = true := by
  cases n with
  | mk eid props pCh inputs iCh prevId res =>
    simp only [EffectNode.previousDeviceIdentity, EffectNode.resource, EffectNode.effectId,
      EffectNode.properties] at hP
    simp only [EffectNode.propertiesChanged] at hCh
    subst hCh
    by_cases hid : some dc.identity = prevId
    · subst hid
      have hwr : (decide (some dc.identity ≠ some dc.identity)) = false := by simp
      rw [hwr] at hP
      simp only [Bool.false_eq_true, if_false] at hP
      simp only [GetD2DImage, hwr]
      simp only [Bool.or_true, eq_self_iff_true, if_true, Bool.false_eq_true, if_false]
      split
      next e2 r1 trP heq =>
        rw [heq] at hP
        simp only at hP
        obtain rfl := (Except.error.injEq .. ▸ hP)
        exact ⟨rfl, rfl⟩
      next u r1 trP heq =>
        rw [heq] at hP
        simp at hP
    · have hwr : (decide (some dc.identity ≠ prevId)) = true := by simp [hid]
      rw [hwr] at hP
      simp only [eq_self_iff_true, if_true] at hP
      simp only [GetD2DImage, hwr]
      simp only [Bool.true_or, eq_self_iff_true, if_true]
      split
      next e2 r1 trP heq =>
        rw [heq] at hP
        simp only at hP
        obtain rfl := (Except.error.injEq .. ▸ hP)
        exact ⟨rfl, rfl⟩
      next u r1 trP heq =>
        rw [heq] at hP
        simp at hP


/-- Claim C4: an empty slot reached by the input-binding loop throws
E_POINTER (NullReference) immediately; a realization that throws leaves the
inputs-changed flag exactly as it was, so a set flag remains set; and in a
concrete run, a node with one filled and one empty input slot fails
getImage with E_POINTER, keeps its inputs-changed flag set, and after the
empty slot is filled with a valid image-producing reference through
SetInput, the next getImage succeeds. -/
theorem claim4_empty_input_slot :
    (∀ (dc : DeviceContext) (ctr : Nat) (r : D2DResource) (i : Nat)
        (rest : List (Option EffectInput)),
      (ApplyInputs dc ctr r i (none :: rest)).result = .error .nullPointer) ∧
    (∀ (dc : DeviceContext) (ctr : Nat) (n : EffectNode) (e : HErr),
      (GetD2DImage dc ctr n).result = .error e →
      (GetD2DImage dc ctr n).node.inputsChanged = n.inputsChanged) ∧
    (GetD2DImage ⟨0⟩ 0 (.mk 1 [] false [some (.leaf 4), none] true none none)).result
      = .error .nullPointer ∧
    (GetD2DImage ⟨0⟩ 0
        (.mk 1 [] false [some (.leaf 4), none] true none none)).node.inputsChanged = true ∧
    SetInputAt (GetD2DImage ⟨0⟩ 0
        (.mk 1 [] false [some (.leaf 4), none] true none none)).node 1 (some (.leaf 7))
      = .ok (.mk 1 [] false [some (.leaf 4), some (.leaf 7)] true (some 0)
          (some ⟨0, 1, 2, [], [(0, 4)]⟩)) ∧
    (GetD2DImage ⟨0⟩ 1 (.mk 1 [] false [some (.leaf 4), some (.leaf 7)] true (some 0)
        (some ⟨0, 1, 2, [], [(0, 4)]⟩))).result = .ok 0 :=
  ⟨fun _ _ _ _ _ => rfl, getD2DImage_error_inputsFlag, rfl, rfl, rfl, rfl⟩

/-- Witness for claim C4: the input-flag preservation part applied at the
concrete failing node of the claim. -/
theorem claim4_empty_input_slot_witness :
    (GetD2DImage ⟨0⟩ 0
        (.mk 1 [] false [some (.leaf 4), none] true none none)).node.inputsChanged =
      (EffectNode.mk 1 [] false [some (.leaf 4), none] true none none).inputsChanged :=
  claim4_empty_input_slot.2.1 ⟨0⟩ 0
    (.mk 1 [] false [some (.leaf 4), none] true none none) .nullPointer rfl

/-- Claim C5: the float-array property encoding is selected by the array
length, with length 16 marshalled as a 4x4 matrix; any other length (such as
7) and any type tag other than unsigned 32-bit integer, float, or float
array fails with E_NOTIMPL (NotImplemented); such a failure inside
SetProperties aborts the properties step, propagates out of getImage, and
leaves a set properties-changed flag set.  The last conjunct shows the
length-16 positive case issuing the matrix SetValue call. -/
theorem claim5_property_marshalling :
    (∀ vs : List Nat, vs.length = 16 → marshalProperty (.singleArray vs) = .ok (.vMatrix4x4 vs)) ∧
    (∀ vs : List Nat, vs.length ≠ 16 → marshalProperty (.singleArray vs) = .error .notImpl) ∧
    (∀ t : Nat, marshalProperty (.other t) = .error .notImpl) ∧
    (∀ (r : D2DResource) (i : Nat) (vs : List Nat) (rest : List (Option PropVal)),
      vs.length ≠ 16 →
      (SetProperties r i (some (.singleArray vs) :: rest)).1 = .error .notImpl) ∧
    (∀ (dc : DeviceContext) (ctr : Nat) (n : EffectNode),
      n.propertiesChanged = true →
      (SetProperties ((if decide (some dc.identity ≠ n.previousDeviceIdentity) then none
        else n.resource).getD (D2DResource.fresh n.effectId ctr)) 0 n.properties).1
          = .error .notImpl →
      (GetD2DImage dc ctr n).result = .error .notImpl ∧
      (GetD2DImage dc ctr n).node.propertiesChanged = true) ∧
    (GetD2DImage ⟨0⟩ 0 (.mk 1 [some (.singleArray [1, 2, 3, 4, 5, 6, 7])] true [] false none
        none)).result = .error .notImpl ∧
    (GetD2DImage ⟨0⟩ 0 (.mk 1 [some (.singleArray [1, 2, 3, 4, 5, 6, 7])] true [] false none
        none)).node.propertiesChanged = true ∧
    Event.setValue 0 0 (.vMatrix4x4 [1, 2, 3, 4, 5, 6, 7, 8, 9, 10, 11, 12, 13, 14, 15, 16]) ∈
      (GetD2DImage ⟨0⟩ 0
        (.mk 1 [some (.singleArray [1, 2, 3, 4, 5, 6, 7, 8, 9, 10, 11, 12, 13, 14, 15, 16])]
          true [] false none none)).trace := by
  refine ⟨?_, ?_, fun _ => rfl, ?_, ?_, rfl, rfl, ?_⟩
  · intro vs h
    simp [marshalProperty, h]
  · intro vs h
    simp [marshalProperty, h]
  · intro r i vs rest h
    simp [SetProperties, marshalProperty, h]
  · intro dc ctr n h1 h2
    exact getD2DImage_propsFail dc ctr n .notImpl h2 h1
  · decide

/-- Witness for claim C5: the length-selecting and flag-preserving parts
applied at concrete inputs. -/
theorem claim5_property_marshalling_witness :
    marshalProperty (.singleArray [1, 2, 3, 4, 5, 6, 7, 8, 9, 10, 11, 12, 13, 14, 15, 16])
      = .ok (.vMatrix4x4 [1, 2, 3, 4, 5, 6, 7, 8, 9, 10, 11, 12, 13, 14, 15, 16]) ∧
    marshalProperty (.singleArray [1, 2, 3, 4, 5, 6, 7]) = .error .notImpl ∧
    marshalProperty (.other 3) = .error .notImpl ∧
    (SetProperties (D2DResource.fresh 1 0) 0 [some (.singleArray [1, 2, 3, 4, 5, 6, 7])]).1
      = .error .notImpl ∧
    ((GetD2DImage ⟨0⟩ 0 (.mk 1 [some (.singleArray [1, 2, 3, 4, 5, 6, 7])] true [] false none
        none)).result = .error .notImpl ∧
      (GetD2DImage ⟨0⟩ 0 (.mk 1 [some (.singleArray [1, 2, 3, 4, 5, 6, 7])] true [] false none
        none)).node.propertiesChanged = true) :=
  ⟨claim5_property_marshalling.1 _ (by decide),
   claim5_property_marshalling.2.1 _ (by decide),
   claim5_property_marshalling.2.2.1 3,
   claim5_property_marshalling.2.2.2.1 (D2DResource.fresh 1 0) 0 _ [] (by decide),
   claim5_property_marshalling.2.2.2.2.1 ⟨0⟩ 0
     (.mk 1 [some (.singleArray [1, 2, 3, 4, 5, 6, 7])] true [] false none none) rfl rfl⟩

/-- Claim C8: a slot whose reference does not support the internal image
interface makes the input-binding loop throw E_NOINTERFACE carrying exactly
the index of that slot (also behind any prefix of valid slots), and a
getImage call on a node with such a slot at index 1 fails with that index in
the error. -/
theorem claim8_wrong_input_type :
    (∀ (dc : DeviceContext) (ctr : Nat) (r : D2DResource) (i t : Nat)
        (rest : List (Option EffectInput)),
      (ApplyInputs dc ctr r i (some (.wrongType t) :: rest)).result
        = .error (.noInterface i)) ∧
    (∀ (dc : DeviceContext) (ctr : Nat) (r : D2DResource) (i : Nat) (pre : List Nat)
        (t : Nat) (rest : List (Option EffectInput)),
      (ApplyInputs dc ctr r i
          ((pre.map fun im => some (.leaf im)) ++ some (.wrongType t) :: rest)).result
        = .error (.noInterface (i + pre.length))) ∧
    (GetD2DImage ⟨0⟩ 0 (.mk 1 [] false [some (.leaf 4), some (.wrongType 0)] true none
        none)).result = .error (.noInterface 1) := by
  refine ⟨fun _ _ _ _ _ _ => rfl, ?_, rfl⟩
  intro dc ctr r i pre t rest
  induction pre generalizing r i with
  | nil => simp [ApplyInputs]
  | cons im pres ih =>
    simp only [List.map_cons, List.cons_append, ApplyInputs]
    have harith : i + (pres.length + 1) = i + 1 + pres.length := by omega
    rw [List.length_cons, harith]
    exact ih (r.setInput i im) (i + 1)


/-- Claim C7: when the input-apply step runs for a node whose inputs
sequence holds the single reference to an upstream effect node B, the
realization sets the resource input count to 1 (the sequence length),
performs exactly one recursive realization of B — with the same device
context argument, whose full trace (beginning with B's own realization-entry
event) is embedded exactly once, so the trace holds exactly one more
realization entry than B's — and binds the image returned by B's realization
as input index 0 of the node's resource.  The hypotheses name the outcome of
the internal properties step (which must not throw, else the inputs step is
never reached), require the inputs step to run, and name the outcome of B's
realization. -/
theorem claim7_recursive_realization (dc : DeviceContext) (ctr eid : Nat)
    (props : List (Option PropVal)) (pCh iCh : Bool) (prevId : Option Nat)
    (res : Option D2DResource) (B : EffectNode) (imgB : Nat)
    (r1 : D2DResource) (trP : List Event) (oB : RealizeOut)
    (hP : (if (decide (some dc.identity ≠ prevId) || pCh)
        then SetProperties ((if decide (some dc.identity ≠ prevId) then none
          else res).getD (D2DResource.fresh eid ctr)) 0 props
        else (.ok (), (if decide (some dc.identity ≠ prevId) then none
          else res).getD (D2DResource.fresh eid ctr), [])) = (.ok (), r1, trP))
    (hRun : (decide (some dc.identity ≠ prevId) || iCh) = true)
    (hOB : GetD2DImage dc (if (if decide (some dc.identity ≠ prevId) then none
        else res).isNone then ctr + 1 else ctr) B = oB)
    (hB : oB.result = .ok imgB) :
    (GetD2DImage dc ctr (.mk eid props pCh [some (.node B)] iCh prevId res)).result
      = .ok ((r1.setInputCount 1).setInput 0 imgB).resId ∧
    (GetD2DImage dc ctr (.mk eid props pCh [some (.node B)] iCh prevId res)).node.resource
      = some ((r1.setInputCount 1).setInput 0 imgB) ∧
    D2DResource.inputAt ((r1.setInputCount 1).setInput 0 imgB) 0 = some imgB ∧
    (GetD2DImage dc ctr (.mk eid props pCh [some (.node B)] iCh prevId res)).node.inputs
      = [some (.node oB.node)] ∧
    (GetD2DImage dc ctr (.mk eid props pCh [some (.node B)] iCh prevId res)).trace
      = (Event.realizeCall dc.identity eid ::
          (if (if decide (some dc.identity ≠ prevId) then none else res).isNone
            then [Event.createEffect eid ctr] else [])) ++ trP ++
        (Event.setInputCount r1.resId 1 :: (oB.trace ++ [Event.setInput r1.resId 0 imgB])) ∧
    countRealizeCalls
        (GetD2DImage dc ctr (.mk eid props pCh [some (.node B)] iCh prevId res)).trace
      = 1 + countRealizeCalls oB.trace := by
  have htrP : countRealizeCalls trP = 0 := by
    cases hranP : (decide (some dc.identity ≠ prevId) || pCh) with
    | false =>
      rw [hranP] at hP
      simp only [Bool.false_eq_true, if_false, Prod.mk.injEq] at hP
      obtain ⟨hpr, hr1, htrP2⟩ := hP
      rw [← htrP2]
      rfl
    | true =>
      rw [hranP] at hP
      simp only [eq_self_iff_true, if_true] at hP
      have h0 := countRealizeCalls_setProperties props
        ((if decide (some dc.identity ≠ prevId) then none
          else res).getD (D2DResource.fresh eid ctr)) 0
      rw [hP] at h0
      exact h0
  obtain ⟨rB, nB, cB, wB, tB⟩ := oB
  simp only [RealizeOut.result] at hB
  subst hB
  simp only [RealizeOut.node, RealizeOut.trace]
  simp only [GetD2DImage]
  rw [hP, hRun]
  simp only [eq_self_iff_true, if_true, List.length_cons, List.length_nil]
  simp only [ApplyInputs]
  rw [hOB]
  simp only [RealizeOut.result, RealizeOut.node, RealizeOut.ctr, RealizeOut.trace]
  refine ⟨?_, ?_, ?_, ?_, ?_, ?_⟩
  · trivial
  · trivial
  · simp [D2DResource.inputAt, D2DResource.setInput]
  · trivial
  · simp [ApplyInputs]
  · simp [ApplyInputs, countRealizeCalls, List.filter_append, Event.isRealizeCall, htrP]
    rw [show (List.filter Event.isRealizeCall trP).length = countRealizeCalls trP from rfl]
    rw [htrP]
    split <;> simp [Event.isRealizeCall] <;> omega


/-- Witness for claim C7: a parent effect with a single upstream effect node
input, realized for the first time; the upstream node is realized once and
its image bound at input 0. -/
theorem claim7_recursive_realization_witness :
    (GetD2DImage ⟨0⟩ 0 (.mk 1 [] false [some (.node (.mk 2 [] false [] true none none))]
        true none none)).result = .ok 0 ∧
    (GetD2DImage ⟨0⟩ 0 (.mk 1 [] false [some (.node (.mk 2 [] false [] true none none))]
        true none none)).node.resource = some ⟨0, 1, 1, [], [(0, 1)]⟩ ∧
    D2DResource.inputAt ⟨0, 1, 1, [], [(0, 1)]⟩ 0 = some 1 ∧
    countRealizeCalls (GetD2DImage ⟨0⟩ 0 (.mk 1 [] false
        [some (.node (.mk 2 [] false [] true none none))] true none none)).trace = 2 := by
  have h := claim7_recursive_realization ⟨0⟩ 0 1 [] false true none none
    (.mk 2 [] false [] true none none) 1 (D2DResource.fresh 1 0) []
    ⟨.ok 1, .mk 2 [] false [] false (some 0) (some ⟨1, 2, 0, [], []⟩), 2, true,
      [.realizeCall 0 2, .createEffect 2 1, .setInputCount 1 0]⟩ rfl rfl rfl rfl
  exact ⟨h.1, h.2.1, h.2.2.1, h.2.2.2.2.2⟩

end CanvasEffectModel
